import Mathlib

/-!
Shallow embedding of the dbt-core excerpt: schema YAML readers
(exposure / metric / group / semantic-model parsers), the compile task
(inline-node lifecycle and result handling) and the common-identifiers
validation rule, together with theorems about them.
-/

namespace Dbt

/-- Modelled from the spec: the supported time-granularity enum
(`dbt_semantic_interfaces.type_enums.time_granularity.TimeGranularity`),
which is imported by the source but not part of this excerpt.  The spec
names DAY and the source comment names month; standard members are
day, week, month, quarter, year. -/
inductive TimeGranularity
  | day
  | week
  | month
  | quarter
  | year
deriving DecidableEq

/-- String value of each granularity member, as compared against
`granularity` in `MetricParser._get_time_window`. -/
def TimeGranularity.value : TimeGranularity → String
  | .day => "day"
  | .week => "week"
  | .month => "month"
  | .quarter => "quarter"
  | .year => "year"

/-- All members, in declaration order (models iterating the enum). -/
def TimeGranularity.all : List TimeGranularity :=
  [.day, .week, .month, .quarter, .year]

/-- Models the list comprehension in the source membership test. -/
def TimeGranularity.values : List String :=
  TimeGranularity.all.map TimeGranularity.value

/-- Models the `TimeGranularity(granularity)` enum constructor: the member
whose value equals the string, if any. -/
def TimeGranularity.fromValue? (s : String) : Option TimeGranularity :=
  TimeGranularity.all.find? (fun g => TimeGranularity.value g = s)

/-- Python `str.split(sep)` with an explicit one-character separator:
split at every occurrence, empty pieces preserved, empty input gives one
empty piece. -/
def splitChars (sep : Char) : List Char → List (List Char)
  | [] => [[]]
  | c :: cs =>
    match splitChars sep cs with
    | [] => [[]]
    | t :: ts => if c = sep then [] :: t :: ts else (c :: t) :: ts

/-- Python `s.split(sep)` on strings. -/
def pySplit (s : String) (sep : Char) : List String :=
  (splitChars sep s.data).map String.mk

/-- Python `granularity.endswith("s")` followed by `granularity[:-1]`:
strip one trailing letter s, if present. -/
def stripPluralS (s : String) : String :=
  if s.data.getLast? = some 's' then String.mk s.data.dropLast else s

/-- Python `str.isdigit` restricted to decimal digits: nonempty and all
characters are decimal digits. -/
def pyIsDigit (s : String) : Bool :=
  !s.data.isEmpty && s.data.all (fun c => c.isDigit)

/-- Python `int` on a decimal-digit string. -/
def pyInt (s : String) : Nat :=
  s.data.foldl (fun acc c => 10 * acc + (c.toNat - 48)) 0

/-- Which of the three raise sites of `_get_time_window` produced the
error. -/
inductive WindowErrorKind
  | invalidWindow
  | invalidGranularity
  | invalidCount
deriving DecidableEq

/-- Models `YamlParseDictError(self.yaml.path, "window", ..., msg)` as
raised by `MetricParser._get_time_window`: the path, the key, the
offending window string, the raise site, and the message text. -/
structure YamlParseDictError where
  path : String
  key : String
  window : String
  kind : WindowErrorKind
  msg : String
deriving DecidableEq

/-- Message of the wrong-token-count raise site. -/
def invalidWindowMsg (w : String) : String :=
  "Invalid window (" ++ w ++ ") in cumulative metric. Should be of the form `<count> <granularity>`, e.g., `28 days`"

/-- Message of the unknown-granularity raise site. -/
def invalidGranularityMsg (g w : String) : String :=
  "Invalid time granularity " ++ g ++ " in cumulative metric window string: (" ++ w ++ ")"

/-- Message of the non-digit-count raise site. -/
def invalidCountMsg (c w : String) : String :=
  "Invalid count (" ++ c ++ ") in cumulative metric window string: (" ++ w ++ ")"

/-- Result value of `_get_time_window`: `MetricTimeWindow(count, granularity)`. -/
structure MetricTimeWindow where
  count : Nat
  granularity : TimeGranularity
deriving DecidableEq

/-- Embedding of `MetricParser._get_time_window`.  `none` input returns
`none`; otherwise the string is split on single spaces, the token count is
checked, the granularity token has one trailing letter s stripped and is
checked against the enum values, the count token is checked to be digits,
and a `MetricTimeWindow` is built.  The source performs the membership
test against `TimeGranularity.values` and then calls the enum
constructor; here the two are fused into `TimeGranularity.fromValue?`
(see `fromValue?_eq_none_iff`). -/
def getTimeWindow (path : String) (unparsedWindow : Option String) :
    Except YamlParseDictError (Option MetricTimeWindow) :=
  match unparsedWindow with
  | none => Except.ok none
  | some w =>
    match pySplit w ' ' with
    | [countStr, granStr] =>
      let granularity := stripPluralS granStr
      match TimeGranularity.fromValue? granularity with
      | none =>
        Except.error
          ⟨path, "window", w, WindowErrorKind.invalidGranularity, invalidGranularityMsg granularity w⟩
      | some g =>
        if pyIsDigit countStr then
          Except.ok (some ⟨pyInt countStr, g⟩)
        else
          Except.error
            ⟨path, "window", w, WindowErrorKind.invalidCount, invalidCountMsg countStr w⟩
    | _ =>
      Except.error ⟨path, "window", w, WindowErrorKind.invalidWindow, invalidWindowMsg w⟩

/-- The fused constructor lookup returns `none` exactly when the string is
not among the enum values, so `getTimeWindow` performs the same
membership test as the source. -/
theorem fromValue?_eq_none_iff (s : String) :
    TimeGranularity.fromValue? s = none ↔ ¬ s ∈ TimeGranularity.values := by
  constructor
  · intro h hmem
    rcases List.mem_map.mp hmem with ⟨g, hg, hv⟩
    have := List.find?_eq_none.mp h g hg
    simp [hv] at this
  · intro h
    apply List.find?_eq_none.mpr
    intro g hg
    simp only [decide_eq_true_eq]
    intro hv
    exact h (List.mem_map.mpr ⟨g, hg, hv⟩)

deriving instance DecidableEq for Except

/-- Spec wording of a malformed window string: it does not split into
exactly two space-separated tokens, or its count token is not composed of
decimal digits, or its granularity token, after stripping one trailing
letter s, is not a member of the granularity enum. -/
def malformedWindow (s : String) : Prop :=
  (pySplit s ' ').length ≠ 2 ∨
  ∃ c g, pySplit s ' ' = [c, g] ∧
    (pyIsDigit c = false ∨ TimeGranularity.fromValue? (stripPluralS g) = none)

/-- C2: for every non-null window string splitting into two tokens whose
count token is decimal digits and whose granularity token, after
stripping one trailing letter s, is an enum member, `_get_time_window`
returns `MetricTimeWindow(int(count), granularity)`. -/
theorem c2_time_window_wellformed (path s c g : String) (gr : TimeGranularity)
    (hsplit : pySplit s ' ' = [c, g])
    (hcount : pyIsDigit c = true)
    (hgran : TimeGranularity.fromValue? (stripPluralS g) = some gr) :
    getTimeWindow path (some s) = Except.ok (some ⟨pyInt c, gr⟩) := by
  simp [getTimeWindow, hsplit, hgran, hcount]

/-- Witness for C2 at the spec example: `"7 days"` parses to count 7 and
granularity DAY. -/
theorem c2_time_window_wellformed_witness :
    getTimeWindow "models/schema.yml" (some "7 days") =
      Except.ok (some ⟨7, TimeGranularity.day⟩) :=
  c2_time_window_wellformed "models/schema.yml" "7 days" "7" "days"
    TimeGranularity.day (by decide) (by decide) (by decide)

/-- C3: every malformed non-null window string makes `_get_time_window`
fail with a `YamlParseDictError` (no partial result); in particular
`"7 dayz"` fails at the granularity raise site and `"seven days"` fails
at the count raise site. -/
theorem c3_time_window_malformed_errors :
    (∀ path s, malformedWindow s →
      ∃ e, getTimeWindow path (some s) = Except.error e)
    ∧ (∃ e, getTimeWindow "models/schema.yml" (some "7 dayz") = Except.error e ∧
        e.kind = WindowErrorKind.invalidGranularity)
    ∧ (∃ e, getTimeWindow "models/schema.yml" (some "seven days") = Except.error e ∧
        e.kind = WindowErrorKind.invalidCount) := by
  refine ⟨?_,
    ⟨⟨"models/schema.yml", "window", "7 dayz", WindowErrorKind.invalidGranularity,
      invalidGranularityMsg "dayz" "7 dayz"⟩, by decide, by decide⟩,
    ⟨⟨"models/schema.yml", "window", "seven days", WindowErrorKind.invalidCount,
      invalidCountMsg "seven" "seven days"⟩, by decide, by decide⟩⟩
  intro path s h
  rcases hp : pySplit s ' ' with _ | ⟨c, _ | ⟨g, _ | ⟨x, rest⟩⟩⟩
  · refine ⟨⟨path, "window", s, WindowErrorKind.invalidWindow, invalidWindowMsg s⟩, ?_⟩
    simp [getTimeWindow, hp]
  · refine ⟨⟨path, "window", s, WindowErrorKind.invalidWindow, invalidWindowMsg s⟩, ?_⟩
    simp [getTimeWindow, hp]
  · rcases h with hlen | ⟨c', g', hp', hbad⟩
    · rw [hp] at hlen
      simp at hlen
    · rw [hp] at hp'
      rcases hp' with ⟨rfl, rfl⟩
      rcases hfv : TimeGranularity.fromValue? (stripPluralS g) with _ | gr
      · refine ⟨⟨path, "window", s, WindowErrorKind.invalidGranularity,
          invalidGranularityMsg (stripPluralS g) s⟩, ?_⟩
        simp [getTimeWindow, hp, hfv]
      · rcases hbad with hdig | hnone
        · refine ⟨⟨path, "window", s, WindowErrorKind.invalidCount, invalidCountMsg c s⟩, ?_⟩
          simp [getTimeWindow, hp, hfv, hdig]
        · rw [hfv] at hnone
          exact absurd hnone (by simp)
  · refine ⟨⟨path, "window", s, WindowErrorKind.invalidWindow, invalidWindowMsg s⟩, ?_⟩
    simp [getTimeWindow, hp]

/-- Witness for C3 at a wrong-token-count input. -/
theorem c3_time_window_malformed_errors_witness :
    ∃ e, getTimeWindow "models/schema.yml" (some "1 2 3") = Except.error e :=
  c3_time_window_malformed_errors.1 "models/schema.yml" "1 2 3" (Or.inl (by decide))

/-- Counterexample to C8 as stated: on the empty string the code does not
return `None`; it raises the invalid-window parse error. -/
theorem c8_counterexample_empty_string_raises :
    getTimeWindow "models/schema.yml" (some "") =
      Except.error ⟨"models/schema.yml", "window", "", WindowErrorKind.invalidWindow,
        invalidWindowMsg ""⟩
    ∧ getTimeWindow "models/schema.yml" (some "") ≠ Except.ok none := by
  constructor
  · decide
  · decide

/-- C8 amended: a null window input yields no `MetricTimeWindow` and no
error; an empty-string input is treated as a malformed window string and
raises the invalid-window parse error. -/
theorem c8_amended_absent_window (path : String) :
    getTimeWindow path none = Except.ok none ∧
    getTimeWindow path (some "") =
      Except.error ⟨path, "window", "", WindowErrorKind.invalidWindow,
        invalidWindowMsg ""⟩ := by
  exact ⟨rfl, rfl⟩

/-- Witness for the amended C8 at a concrete path. -/
theorem c8_amended_absent_window_witness :
    getTimeWindow "models/schema.yml" none = Except.ok none ∧
    getTimeWindow "models/schema.yml" (some "") =
      Except.error ⟨"models/schema.yml", "window", "", WindowErrorKind.invalidWindow,
        invalidWindowMsg ""⟩ :=
  c8_amended_absent_window "models/schema.yml"

/-- C10: on a two-token window string whose count token is not decimal
digits and whose granularity token (after stripping one trailing letter
s) is not an enum member, `_get_time_window` raises the
invalid-granularity error, not the invalid-count error: the granularity
membership test runs before the count digit test. -/
theorem c10_granularity_checked_before_count (path s c g : String)
    (hsplit : pySplit s ' ' = [c, g])
    (hcount : pyIsDigit c = false)
    (hgran : TimeGranularity.fromValue? (stripPluralS g) = none) :
    getTimeWindow path (some s) =
      Except.error ⟨path, "window", s, WindowErrorKind.invalidGranularity,
        invalidGranularityMsg (stripPluralS g) s⟩ := by
  simp [getTimeWindow, hsplit, hgran]

/-- Witness for C10 at `"seven dayz"`: both tokens are invalid and the
granularity error is the one raised. -/
theorem c10_granularity_checked_before_count_witness :
    getTimeWindow "models/schema.yml" (some "seven dayz") =
      Except.error ⟨"models/schema.yml", "window", "seven dayz",
        WindowErrorKind.invalidGranularity, invalidGranularityMsg "dayz" "seven dayz"⟩ :=
  c10_granularity_checked_before_count "models/schema.yml" "seven dayz" "seven" "dayz"
    (by decide) (by decide) (by decide)

/-- Rendered exposure config (`ExposureConfig`): the excerpt reads only its
`enabled` flag. -/
structure ExposureConfig where
  enabled : Bool
deriving DecidableEq

/-- Rendered metric config (`MetricConfig`): the excerpt reads its
`enabled` flag and its `group`. -/
structure MetricConfig where
  enabled : Bool
  group : Option String
deriving DecidableEq

/-- A config object as produced by the config generators: the expected
classes, or some other config class (`isinstance` failure case). -/
inductive Config
  | exposure (c : ExposureConfig)
  | metric (c : MetricConfig)
  | other (typeName : String)
deriving DecidableEq

/-- Models Python `type(config)` as printed in the internal-error
messages. -/
def Config.typeName : Config → String
  | .exposure _ => "ExposureConfig"
  | .metric _ => "MetricConfig"
  | .other t => t

/-- Models `WhereFilter(where_sql_template=...)`. -/
structure WhereFilter where
  whereSqlTemplate : String
deriving DecidableEq

/-- Models `Union[T, str]` fields of the unparsed metric schema. -/
inductive StrOr (α : Type)
  | str (s : String)
  | obj (a : α)
deriving DecidableEq

/-- Unparsed input measure (`UnparsedMetricInputMeasure`). -/
structure UnparsedMetricInputMeasure where
  name : String
  filter : Option String
  aliasName : Option String
deriving DecidableEq

/-- Unparsed metric input (`UnparsedMetricInput`). -/
structure UnparsedMetricInput where
  name : String
  filter : Option String
  aliasName : Option String
  offsetWindow : Option String
  offsetToGrain : Option String
deriving DecidableEq

/-- Unparsed metric type params (`UnparsedMetricTypeParams`). -/
structure UnparsedMetricTypeParams where
  measure : Option (StrOr UnparsedMetricInputMeasure)
  measures : Option (List (StrOr UnparsedMetricInputMeasure))
  numerator : Option (StrOr UnparsedMetricInputMeasure)
  denominator : Option (StrOr UnparsedMetricInputMeasure)
  expr : Option String
  window : Option String
  grainToDate : Option String
  metrics : Option (List (StrOr UnparsedMetricInput))
deriving DecidableEq

/-- Unparsed metric declaration (`UnparsedMetric`), the fields the parser
reads; the raw config mapping is absorbed into the abstract config
generator. -/
structure UnparsedMetric where
  name : String
  description : String
  label : Option String
  type : String
  typeParams : UnparsedMetricTypeParams
  filter : Option String
deriving DecidableEq

/-- Unparsed exposure declaration (`UnparsedExposure`), the fields the
parser reads. -/
structure UnparsedExposure where
  name : String
  type : String
  url : Option String
  description : String
  owner : String
  dependsOn : List String
deriving DecidableEq

/-- Unparsed group declaration (`UnparsedGroup`). -/
structure UnparsedGroup where
  name : String
  owner : String
deriving DecidableEq

/-- Unparsed semantic model declaration (`UnparsedSemanticModel`). -/
structure UnparsedSemanticModel where
  name : String
  description : Option String
  model : String
  entities : List String
  measures : List String
  dimensions : List String
deriving DecidableEq

/-- Parsed input measure (`MetricInputMeasure`). -/
structure MetricInputMeasure where
  name : String
  filter : Option WhereFilter
  aliasName : Option String
deriving DecidableEq

/-- Parsed metric input (`MetricInput`). -/
structure MetricInput where
  name : String
  filter : Option WhereFilter
  aliasName : Option String
  offsetWindow : Option MetricTimeWindow
  offsetToGrain : Option TimeGranularity
deriving DecidableEq

/-- Parsed metric type params (`MetricTypeParams`). -/
structure MetricTypeParams where
  measure : Option MetricInputMeasure
  measures : List MetricInputMeasure
  numerator : Option MetricInputMeasure
  denominator : Option MetricInputMeasure
  expr : Option String
  window : Option MetricTimeWindow
  grainToDate : Option TimeGranularity
  metrics : List MetricInput
deriving DecidableEq

/-- Parsed exposure node (`Exposure`). -/
structure Exposure where
  resourceType : String
  packageName : String
  path : String
  originalFilePath : String
  uniqueId : String
  fqn : List String
  name : String
  type : String
  url : Option String
  description : String
  owner : String
  config : ExposureConfig
  unrenderedConfig : Config
  dependsOnNodes : List String
deriving DecidableEq

/-- Parsed metric node (`Metric`).  The `type` field holds the validated
metric-type value string. -/
structure Metric where
  resourceType : String
  packageName : String
  path : String
  originalFilePath : String
  uniqueId : String
  fqn : List String
  name : String
  description : String
  label : Option String
  type : String
  typeParams : MetricTypeParams
  filter : Option WhereFilter
  config : MetricConfig
  unrenderedConfig : Config
  group : Option String
deriving DecidableEq

/-- Parsed group node (`Group`). -/
structure Group where
  resourceType : String
  packageName : String
  path : String
  originalFilePath : String
  uniqueId : String
  name : String
  owner : String
deriving DecidableEq

/-- Parsed semantic model node (`SemanticModel`); `nodeRelation` is left
unresolved at parse time. -/
structure SemanticModel where
  description : Option String
  fqn : List String
  model : String
  name : String
  nodeRelation : Option String
  originalFilePath : String
  packageName : String
  path : String
  resourceType : String
  uniqueId : String
  entities : List String
  measures : List String
  dimensions : List String
deriving DecidableEq

/-- A node held in the disabled partition. -/
inductive DisabledNode
  | exposure (e : Exposure)
  | metric (m : Metric)
deriving DecidableEq

/-- An executable node added by the compile task (inline sql operation). -/
structure SqlNode where
  name : String
  uniqueId : String
deriving DecidableEq

/-- Modelled from the spec: the Manifest aggregate, partitioned into
per-kind enabled maps keyed by unique id, the executable nodes map, and a
disabled partition keyed by source file (the manifest class itself is
outside this excerpt). -/
structure Manifest where
  nodes : String → Option SqlNode
  exposures : String → Option Exposure
  metrics : String → Option Metric
  groups : String → Option Group
  semanticModels : String → Option SemanticModel
  disabled : String → List DisabledNode

/-- The manifest with all partitions empty. -/
def emptyManifest : Manifest :=
  { nodes := fun _ => none, exposures := fun _ => none, metrics := fun _ => none,
    groups := fun _ => none, semanticModels := fun _ => none, disabled := fun _ => [] }

/-- Modelled from the spec: `manifest.add_exposure(file, node)` puts the
node into the enabled exposure partition keyed by its unique id. -/
def Manifest.add_exposure (m : Manifest) (file : String) (e : Exposure) : Manifest :=
  { m with exposures := fun k => if k = e.uniqueId then some e else m.exposures k }

/-- Modelled from the spec: `manifest.add_metric(file, node)` puts the
node into the enabled metric partition keyed by its unique id. -/
def Manifest.add_metric (m : Manifest) (file : String) (mt : Metric) : Manifest :=
  { m with metrics := fun k => if k = mt.uniqueId then some mt else m.metrics k }

/-- Modelled from the spec: `manifest.add_group(file, node)`. -/
def Manifest.add_group (m : Manifest) (file : String) (g : Group) : Manifest :=
  { m with groups := fun k => if k = g.uniqueId then some g else m.groups k }

/-- Modelled from the spec: `manifest.add_semantic_model(file, node)`. -/
def Manifest.add_semantic_model (m : Manifest) (file : String) (sm : SemanticModel) : Manifest :=
  { m with semanticModels := fun k => if k = sm.uniqueId then some sm else m.semanticModels k }

/-- Modelled from the spec: `manifest.add_disabled(file, node)` appends
the node to the disabled partition keyed by its source file. -/
def Manifest.add_disabled (m : Manifest) (file : String) (n : DisabledNode) : Manifest :=
  { m with disabled := fun k => if k = file then m.disabled file ++ [n] else m.disabled k }

/-- Dict assignment `manifest.nodes[uid] = node` performed by
`process_node` when the inline node is injected. -/
def Manifest.addNode (m : Manifest) (n : SqlNode) : Manifest :=
  { m with nodes := fun k => if k = n.uniqueId then some n else m.nodes k }

/-- Dict removal `manifest.nodes.pop(uid)` performed by
`CompileTask.after_run`. -/
def Manifest.popNode (m : Manifest) (uid : String) : Manifest :=
  { m with nodes := fun k => if k = uid then none else m.nodes k }

/-- Per-file parsing context shared by the YAML readers: the project
name, the yaml block path (relative and original), the fqn path segments
computed by `get_fqn_prefix`, and the source file the node is keyed by in
the disabled partition. -/
structure ParseEnv where
  projectName : String
  relativePath : String
  originalFilePath : String
  fqnRoot : List String
  file : String
deriving DecidableEq

/-- Exceptions the metric/exposure parsers can raise: the structured yaml
parse error, `DbtInternalError`, and a bare `ValueError` from an enum
constructor. -/
inductive ParseError
  | yaml (e : YamlParseDictError)
  | internal (msg : String)
  | valueError (value : String)
deriving DecidableEq

/-- Modelled from the spec: the values of the imported `MetricType` enum. -/
def metricTypeValues : List String :=
  ["simple", "ratio", "cumulative", "derived"]

/-- Models the `MetricType(unparsed.type)` enum constructor. -/
def metricTypeFromValue? (s : String) : Option String :=
  if s ∈ metricTypeValues then some s else none

/-- Embedding of `MetricParser._get_input_measure`: a bare string is
shorthand for a measure with no filter and no alias set. -/
def getInputMeasure : StrOr UnparsedMetricInputMeasure → MetricInputMeasure
  | .str s => { name := s, filter := none, aliasName := none }
  | .obj im =>
    { name := im.name,
      filter := im.filter.map (fun f => ⟨f⟩),
      aliasName := im.aliasName }

/-- Embedding of `MetricParser._get_optional_input_measure`. -/
def getOptionalInputMeasure :
    Option (StrOr UnparsedMetricInputMeasure) → Option MetricInputMeasure
  | some u => some (getInputMeasure u)
  | none => none

/-- Embedding of `MetricParser._get_input_measures`. -/
def getInputMeasures :
    Option (List (StrOr UnparsedMetricInputMeasure)) → List MetricInputMeasure
  | some us => us.map getInputMeasure
  | none => []

/-- One element of `MetricParser._get_metric_inputs`: a bare string is
shorthand; otherwise the offset-to-grain enum constructor runs first,
then the filter is built, then the offset window is parsed. -/
def getMetricInputOne (path : String) : StrOr UnparsedMetricInput → Except ParseError MetricInput
  | .str s =>
    Except.ok { name := s, filter := none, aliasName := none, offsetWindow := none,
                offsetToGrain := none }
  | .obj mi =>
    let grainStep : Except ParseError (Option TimeGranularity) :=
      match mi.offsetToGrain with
      | none => Except.ok none
      | some s =>
        match TimeGranularity.fromValue? s with
        | some g => Except.ok (some g)
        | none => Except.error (ParseError.valueError s)
    match grainStep with
    | Except.error e => Except.error e
    | Except.ok offsetToGrain =>
      let filter := mi.filter.map (fun f => (⟨f⟩ : WhereFilter))
      match getTimeWindow path mi.offsetWindow with
      | Except.error e => Except.error (ParseError.yaml e)
      | Except.ok w =>
        Except.ok { name := mi.name, filter := filter, aliasName := mi.aliasName,
                    offsetWindow := w, offsetToGrain := offsetToGrain }

/-- The loop body of `MetricParser._get_metric_inputs` over the list, in
order, stopping at the first raised error. -/
def getMetricInputsList (path : String) :
    List (StrOr UnparsedMetricInput) → Except ParseError (List MetricInput)
  | [] => Except.ok []
  | u :: rest =>
    match getMetricInputOne path u with
    | Except.error e => Except.error e
    | Except.ok x =>
      match getMetricInputsList path rest with
      | Except.error e => Except.error e
      | Except.ok l => Except.ok (x :: l)

/-- Embedding of `MetricParser._get_metric_inputs` (a `None` list yields
the empty list). -/
def getMetricInputs (path : String) :
    Option (List (StrOr UnparsedMetricInput)) → Except ParseError (List MetricInput)
  | none => Except.ok []
  | some us => getMetricInputsList path us

/-- Embedding of `MetricParser._get_metric_type_params`: grain-to-date
enum constructor first, then the window parse, then the nested metric
inputs, then the record is assembled. -/
def getMetricTypeParams (path : String) (tp : UnparsedMetricTypeParams) :
    Except ParseError MetricTypeParams :=
  let grainStep : Except ParseError (Option TimeGranularity) :=
    match tp.grainToDate with
    | none => Except.ok none
    | some s =>
      match TimeGranularity.fromValue? s with
      | some g => Except.ok (some g)
      | none => Except.error (ParseError.valueError s)
  match grainStep with
  | Except.error e => Except.error e
  | Except.ok grainToDate =>
    match getTimeWindow path tp.window with
    | Except.error e => Except.error (ParseError.yaml e)
    | Except.ok window =>
      match getMetricInputs path tp.metrics with
      | Except.error e => Except.error e
      | Except.ok metricInputs =>
        Except.ok { measure := getOptionalInputMeasure tp.measure,
                    measures := getInputMeasures tp.measures,
                    numerator := getOptionalInputMeasure tp.numerator,
                    denominator := getOptionalInputMeasure tp.denominator,
                    expr := tp.expr,
                    window := window,
                    grainToDate := grainToDate,
                    metrics := metricInputs }

/-- The `Exposure(...)` node constructor call of `parse_exposure`, with
the unique id and fqn computed as in the source. -/
def mkParsedExposure (env : ParseEnv) (u : UnparsedExposure) (cfg : ExposureConfig)
    (unrenderedConfig : Config) (deps : List String) : Exposure :=
  { resourceType := "exposure", packageName := env.projectName, path := env.relativePath,
    originalFilePath := env.originalFilePath,
    uniqueId := "exposure." ++ env.projectName ++ "." ++ u.name,
    fqn := env.fqnRoot ++ [u.name],
    name := u.name, type := u.type, url := u.url, description := u.description,
    owner := u.owner, config := cfg, unrenderedConfig := unrenderedConfig,
    dependsOnNodes := deps }

/-- Embedding of `ExposureParser.parse_exposure`.  `gen` abstracts
`_generate_exposure_config` followed by `finalize_and_validate` (rendered
case) and the unrendered generator; the second component of the result is
the trace of `rendered` flags of the config resolutions performed.
`capture` abstracts the dependency-capture rendering of the depends-on
expressions. -/
def parseExposure (env : ParseEnv) (gen : Bool → Config)
    (capture : List String → List String) (u : UnparsedExposure)
    (m : Manifest) (log : List Bool) :
    Except ParseError Manifest × List Bool :=
  let config := gen true
  let log := log ++ [true]
  let unrenderedConfig := gen false
  let log := log ++ [false]
  match config with
  | Config.exposure cfg =>
    let parsed : Exposure := mkParsedExposure env u cfg unrenderedConfig (capture u.dependsOn)
    if cfg.enabled then
      (Except.ok (Manifest.add_exposure m env.file parsed), log)
    else
      (Except.ok (Manifest.add_disabled m env.file (DisabledNode.exposure parsed)), log)
  | c =>
    (Except.error (ParseError.internal
      ("Calculated a " ++ Config.typeName c ++ " for an exposure, but expected an ExposureConfig")), log)

/-- The `Metric(...)` node constructor call of `parse_metric`, with the
unique id and fqn computed as in the source. -/
def mkParsedMetric (env : ParseEnv) (u : UnparsedMetric) (cfg : MetricConfig)
    (unrenderedConfig : Config) (mtype : String) (tp : MetricTypeParams) : Metric :=
  { resourceType := "metric", packageName := env.projectName, path := env.relativePath,
    originalFilePath := env.originalFilePath,
    uniqueId := "metric." ++ env.projectName ++ "." ++ u.name,
    fqn := env.fqnRoot ++ [u.name],
    name := u.name, description := u.description, label := u.label,
    type := mtype, typeParams := tp,
    filter := u.filter.map (fun f => (⟨f⟩ : WhereFilter)),
    config := cfg, unrenderedConfig := unrenderedConfig, group := cfg.group }

/-- Embedding of `MetricParser.parse_metric`, with `gen` abstracting the
two config resolutions as in `parseExposure`. -/
def parseMetric (env : ParseEnv) (gen : Bool → Config) (u : UnparsedMetric)
    (m : Manifest) (log : List Bool) :
    Except ParseError Manifest × List Bool :=
  let config := gen true
  let log := log ++ [true]
  let unrenderedConfig := gen false
  let log := log ++ [false]
  match config with
  | Config.metric cfg =>
    match metricTypeFromValue? u.type with
    | none => (Except.error (ParseError.valueError u.type), log)
    | some mtype =>
      match getMetricTypeParams env.relativePath u.typeParams with
      | Except.error e => (Except.error e, log)
      | Except.ok tp =>
        let parsed : Metric := mkParsedMetric env u cfg unrenderedConfig mtype tp
        if cfg.enabled then
          (Except.ok (Manifest.add_metric m env.file parsed), log)
        else
          (Except.ok (Manifest.add_disabled m env.file (DisabledNode.metric parsed)), log)
  | c =>
    (Except.error (ParseError.internal
      ("Calculated a " ++ Config.typeName c ++ " for a metric, but expected a MetricConfig")), log)

/-- Embedding of `GroupParser.parse_group`: identity plus owner, no config
resolution, registered directly. -/
def parseGroup (env : ParseEnv) (u : UnparsedGroup) (m : Manifest) (log : List Bool) :
    Manifest × List Bool :=
  let packageName := env.projectName
  let uniqueId := "group." ++ packageName ++ "." ++ u.name
  let parsed : Group :=
    { resourceType := "group", packageName := packageName, path := env.relativePath,
      originalFilePath := env.originalFilePath, uniqueId := uniqueId,
      name := u.name, owner := u.owner }
  (Manifest.add_group m env.file parsed, log)

/-- Embedding of `SemanticModelParser.parse_semantic_model`: passthrough
of entities/measures/dimensions, node relation deferred, no config
resolution. -/
def parseSemanticModel (env : ParseEnv) (u : UnparsedSemanticModel)
    (m : Manifest) (log : List Bool) : Manifest × List Bool :=
  let packageName := env.projectName
  let uniqueId := "semantic_model." ++ packageName ++ "." ++ u.name
  let fqn := env.fqnRoot ++ [u.name]
  let parsed : SemanticModel :=
    { description := u.description, fqn := fqn, model := u.model, name := u.name,
      nodeRelation := none, originalFilePath := env.originalFilePath,
      packageName := packageName, path := env.relativePath,
      resourceType := "semantic_model", uniqueId := uniqueId,
      entities := u.entities, measures := u.measures, dimensions := u.dimensions }
  (Manifest.add_semantic_model m env.file parsed, log)

/-- Counterexample to C4 as stated: parsing a group declaration performs
zero config resolutions, not two, so not every resource kind resolves the
configuration twice. -/
theorem c4_counterexample_group_resolves_no_config :
    (parseGroup ⟨"jaffle_shop", "models/groups.yml", "models/groups.yml",
        ["jaffle_shop"], "groups.yml"⟩
      ⟨"finance", "analytics_team"⟩ emptyManifest []).2 = []
    ∧ ([] : List Bool) ≠ [true, false] := by
  exact ⟨rfl, by decide⟩

/-- C4 amended: exposure and metric declarations resolve the
configuration exactly twice, rendered then unrendered, before the node is
constructed and registered; group and semantic-model declarations perform
no config resolution at all. -/
theorem c4_amended_config_resolutions (env : ParseEnv) (gen : Bool → Config)
    (capture : List String → List String) (ue : UnparsedExposure)
    (um : UnparsedMetric) (ug : UnparsedGroup) (us : UnparsedSemanticModel)
    (m : Manifest) (log : List Bool) :
    (parseExposure env gen capture ue m log).2 = log ++ [true, false]
    ∧ (parseMetric env gen um m log).2 = log ++ [true, false]
    ∧ (parseGroup env ug m log).2 = log
    ∧ (parseSemanticModel env us m log).2 = log := by
  refine ⟨?_, ?_, rfl, rfl⟩
  · unfold parseExposure
    rcases gen true with cfg | cfg | t
    · rcases hen : cfg.enabled <;> simp [hen]
    · simp
    · simp
  · unfold parseMetric
    rcases gen true with cfg | cfg | t
    · simp
    · rcases hmt : metricTypeFromValue? um.type with _ | mtype <;> simp [hmt]
      rcases htp : getMetricTypeParams env.relativePath um.typeParams with e | tp <;> simp [htp]
      rcases hen : cfg.enabled <;> simp [hen]
    · simp

/-- Witness for the amended C4 at concrete declarations. -/
theorem c4_amended_config_resolutions_witness :
    (parseExposure ⟨"jaffle_shop", "models/schema.yml", "models/schema.yml",
          ["jaffle_shop"], "schema.yml"⟩
        (fun _ => Config.exposure ⟨true⟩) (fun d => d)
        ⟨"weekly_report", "dashboard", none, "weekly numbers", "analytics", []⟩
        emptyManifest []).2 = [true, false]
    ∧ (parseMetric ⟨"jaffle_shop", "models/schema.yml", "models/schema.yml",
          ["jaffle_shop"], "schema.yml"⟩
        (fun _ => Config.metric ⟨true, none⟩)
        ⟨"revenue", "total revenue", none, "simple",
          ⟨none, none, none, none, none, none, none, none⟩, none⟩
        emptyManifest []).2 = [true, false]
    ∧ (parseGroup ⟨"jaffle_shop", "models/schema.yml", "models/schema.yml",
          ["jaffle_shop"], "schema.yml"⟩
        ⟨"finance", "analytics_team"⟩ emptyManifest []).2 = []
    ∧ (parseSemanticModel ⟨"jaffle_shop", "models/schema.yml", "models/schema.yml",
          ["jaffle_shop"], "schema.yml"⟩
        ⟨"orders", none, "orders_model", [], [], []⟩ emptyManifest []).2 = [] := by
  have h := c4_amended_config_resolutions
    ⟨"jaffle_shop", "models/schema.yml", "models/schema.yml", ["jaffle_shop"], "schema.yml"⟩
    (fun _ => Config.exposure ⟨true⟩) (fun d => d)
    ⟨"weekly_report", "dashboard", none, "weekly numbers", "analytics", []⟩
    ⟨"revenue", "total revenue", none, "simple",
      ⟨none, none, none, none, none, none, none, none⟩, none⟩
    ⟨"finance", "analytics_team"⟩
    ⟨"orders", none, "orders_model", [], [], []⟩ emptyManifest []
  have h2 := c4_amended_config_resolutions
    ⟨"jaffle_shop", "models/schema.yml", "models/schema.yml", ["jaffle_shop"], "schema.yml"⟩
    (fun _ => Config.metric ⟨true, none⟩) (fun d => d)
    ⟨"weekly_report", "dashboard", none, "weekly numbers", "analytics", []⟩
    ⟨"revenue", "total revenue", none, "simple",
      ⟨none, none, none, none, none, none, none, none⟩, none⟩
    ⟨"finance", "analytics_team"⟩
    ⟨"orders", none, "orders_model", [], [], []⟩ emptyManifest []
  exact ⟨h.1, h2.2.1, h.2.2.1, h.2.2.2⟩

/-- C1: on every successful exposure or metric parse, the node whose
rendered config has `enabled = true` is added to the enabled partition
keyed by its unique id with the disabled partition untouched, and the
node whose rendered config has `enabled = false` is added to the disabled
partition keyed by the source file with the enabled partition untouched;
a node is never added to both partitions. -/
theorem c1_enabled_partition_registration (env : ParseEnv) (gen : Bool → Config)
    (capture : List String → List String) (ue : UnparsedExposure)
    (um : UnparsedMetric) (m : Manifest) (log : List Bool) :
    (∀ m2 log2, parseExposure env gen capture ue m log = (Except.ok m2, log2) →
      ∃ p : Exposure,
        p.uniqueId = "exposure." ++ env.projectName ++ "." ++ ue.name ∧
        gen true = Config.exposure p.config ∧
        ((p.config.enabled = true ∧ m2.exposures p.uniqueId = some p ∧
            m2.disabled = m.disabled) ∨
         (p.config.enabled = false ∧ DisabledNode.exposure p ∈ m2.disabled env.file ∧
            m2.exposures = m.exposures)))
    ∧ (∀ m2 log2, parseMetric env gen um m log = (Except.ok m2, log2) →
      ∃ p : Metric,
        p.uniqueId = "metric." ++ env.projectName ++ "." ++ um.name ∧
        gen true = Config.metric p.config ∧
        ((p.config.enabled = true ∧ m2.metrics p.uniqueId = some p ∧
            m2.disabled = m.disabled) ∨
         (p.config.enabled = false ∧ DisabledNode.metric p ∈ m2.disabled env.file ∧
            m2.metrics = m.metrics))) := by
  constructor
  · intro m2 log2 h
    unfold parseExposure at h
    rcases hg : gen true with cfg | cfg | t <;> rw [hg] at h <;> dsimp only at h
    · rcases hen : cfg.enabled with _ | _ <;> rw [hen] at h <;>
        simp only [Bool.false_eq_true, if_true, if_false, ite_true, ite_false,
          Prod.mk.injEq, Except.ok.injEq] at h
      · obtain ⟨rfl, -⟩ := h
        refine ⟨mkParsedExposure env ue cfg (gen false) (capture ue.dependsOn),
          rfl, rfl, Or.inr ⟨hen, ?_, rfl⟩⟩
        simp [Manifest.add_disabled]
      · obtain ⟨rfl, -⟩ := h
        refine ⟨mkParsedExposure env ue cfg (gen false) (capture ue.dependsOn),
          rfl, rfl, Or.inl ⟨hen, ?_, rfl⟩⟩
        simp [Manifest.add_exposure]
    · simp at h
    · simp at h
  · intro m2 log2 h
    unfold parseMetric at h
    rcases hg : gen true with cfg | cfg | t <;> rw [hg] at h <;> dsimp only at h
    · simp at h
    · rcases hmt : metricTypeFromValue? um.type with _ | mtype <;> rw [hmt] at h <;>
        dsimp only at h
      · simp at h
      · rcases htp : getMetricTypeParams env.relativePath um.typeParams with e | tp <;>
          rw [htp] at h <;> dsimp only at h
        · simp at h
        · rcases hen : cfg.enabled with _ | _ <;> rw [hen] at h <;>
            simp only [Bool.false_eq_true, if_true, if_false, ite_true, ite_false,
              Prod.mk.injEq, Except.ok.injEq] at h
          · obtain ⟨rfl, -⟩ := h
            refine ⟨mkParsedMetric env um cfg (gen false) mtype tp,
              rfl, rfl, Or.inr ⟨hen, ?_, rfl⟩⟩
            simp [Manifest.add_disabled]
          · obtain ⟨rfl, -⟩ := h
            refine ⟨mkParsedMetric env um cfg (gen false) mtype tp,
              rfl, rfl, Or.inl ⟨hen, ?_, rfl⟩⟩
            simp [Manifest.add_metric]
    · simp at h

/-- Concrete parse context used by the witnesses. -/
def envW : ParseEnv :=
  ⟨"jaffle_shop", "models/schema.yml", "models/schema.yml", ["jaffle_shop"], "schema.yml"⟩

/-- Concrete unparsed exposure used by the witnesses. -/
def ueW : UnparsedExposure :=
  ⟨"weekly_report", "dashboard", none, "weekly numbers", "analytics", []⟩

/-- Concrete unparsed metric used by the witnesses. -/
def umW : UnparsedMetric :=
  ⟨"revenue", "total revenue", none, "simple",
    ⟨none, none, none, none, none, none, none, none⟩, none⟩

/-- Config generator that produces an enabled exposure config. -/
def genExposureW : Bool → Config := fun _ => Config.exposure ⟨true⟩

/-- The manifest produced by parsing `ueW` under `genExposureW`. -/
def exposureManifestW : Manifest :=
  Manifest.add_exposure emptyManifest "schema.yml"
    (mkParsedExposure envW ueW ⟨true⟩ (Config.exposure ⟨true⟩) [])

/-- Witness for C1: a concrete enabled exposure is registered in the
enabled partition, with the disabled partition untouched. -/
theorem c1_enabled_partition_registration_witness :
    ∃ p : Exposure,
      p.uniqueId = "exposure." ++ envW.projectName ++ "." ++ ueW.name ∧
      genExposureW true = Config.exposure p.config ∧
      ((p.config.enabled = true ∧ exposureManifestW.exposures p.uniqueId = some p ∧
          exposureManifestW.disabled = emptyManifest.disabled) ∨
       (p.config.enabled = false ∧
          DisabledNode.exposure p ∈ exposureManifestW.disabled envW.file ∧
          exposureManifestW.exposures = emptyManifest.exposures)) :=
  (c1_enabled_partition_registration envW genExposureW (fun d => d) ueW umW
      emptyManifest []).1 exposureManifestW [true, false] rfl

/-- C7: when the finalized rendered config object is not an instance of
the expected config class, the exposure and metric parsers raise
`DbtInternalError` naming the produced type instead of registering a
node with a coerced config. -/
theorem c7_wrong_config_class_internal_error (env : ParseEnv) (gen : Bool → Config)
    (capture : List String → List String) (ue : UnparsedExposure)
    (um : UnparsedMetric) (m : Manifest) (log : List Bool) :
    ((∀ c, gen true ≠ Config.exposure c) →
      (parseExposure env gen capture ue m log).1 =
        Except.error (ParseError.internal
          ("Calculated a " ++ Config.typeName (gen true) ++
            " for an exposure, but expected an ExposureConfig")))
    ∧ ((∀ c, gen true ≠ Config.metric c) →
      (parseMetric env gen um m log).1 =
        Except.error (ParseError.internal
          ("Calculated a " ++ Config.typeName (gen true) ++
            " for a metric, but expected a MetricConfig"))) := by
  constructor
  · intro hnot
    unfold parseExposure
    rcases hg : gen true with cfg | cfg | t
    · exact absurd hg (hnot cfg)
    · rfl
    · rfl
  · intro hnot
    unfold parseMetric
    rcases hg : gen true with cfg | cfg | t
    · rfl
    · exact absurd hg (hnot cfg)
    · rfl

/-- Config generator that produces a config of an unexpected class. -/
def genOtherW : Bool → Config := fun _ => Config.other "SourceConfig"

/-- Witness for C7: a config of class `SourceConfig` makes the exposure
parser fail with the internal error naming that class. -/
theorem c7_wrong_config_class_internal_error_witness :
    (parseExposure envW genOtherW (fun d => d) ueW emptyManifest []).1 =
      Except.error (ParseError.internal
        ("Calculated a " ++ Config.typeName (genOtherW true) ++
          " for an exposure, but expected an ExposureConfig")) :=
  (c7_wrong_config_class_internal_error envW genOtherW (fun d => d) ueW umW
      emptyManifest []).1 (fun c => by simp [genOtherW])

/-- A run result node as seen by the compile task result handler. -/
structure ResultNode where
  name : String
  uniqueId : String
  isEphemeralModel : Bool
deriving DecidableEq

/-- A per-node run result; `success` stands for the run status. -/
structure RunResult where
  node : ResultNode
  success : Bool
deriving DecidableEq

/-- The compile task argument object: the optional inline query string
and the truthiness of the selection argument. -/
structure CompileArgs where
  inline : Option String
  select : Bool
deriving DecidableEq

/-- The mutable compile-task state the excerpt touches: the manifest, the
`_inline_node_id` marker and the user-facing `node_results` stream. -/
structure CompileTaskState where
  manifest : Manifest
  inlineNodeId : Option String
  nodeResults : List RunResult

/-- Embedding of `CompileTask._runtime_initialize`: with an inline query,
parse it (`parse_remote` plus `process_node` abstracted as `parseRemote`),
add the node to the manifest nodes map and remember its unique id; a
parse failure fails the whole run before execution. -/
def runtimeInitialize (args : CompileArgs)
    (parseRemote : String → Except String SqlNode) (st : CompileTaskState) :
    Except String CompileTaskState :=
  match args.inline with
  | some q =>
    match parseRemote q with
    | Except.error _ => Except.error "Error parsing inline query"
    | Except.ok sqlNode =>
      Except.ok { st with
        manifest := Manifest.addNode st.manifest sqlNode,
        inlineNodeId := some sqlNode.uniqueId }
  | none => Except.ok st

/-- Embedding of `CompileTask.after_run`: pop the inline node, if one was
injected, from the manifest nodes map and clear the marker. -/
def afterRun (st : CompileTaskState) : CompileTaskState :=
  match st.inlineNodeId with
  | some uid =>
    { st with manifest := Manifest.popNode st.manifest uid, inlineNodeId := none }
  | none => st

/-- Modelled from the spec: the execute phase reads the manifest but does
not mutate its node maps; workers only produce per-node results, which
may succeed or fail. -/
def executeNodes (st : CompileTaskState) (results : List RunResult) :
    CompileTaskState × List RunResult :=
  (st, results)

/-- One whole compile run: initialize (with optional inline injection),
execute, then `after_run`; `after_run` runs on success and failure alike
(the `results` list carries whatever statuses execution produced). -/
def runCompileTask (args : CompileArgs)
    (parseRemote : String → Except String SqlNode)
    (results : List RunResult) (st : CompileTaskState) :
    Except String (CompileTaskState × List RunResult) :=
  match runtimeInitialize args parseRemote st with
  | Except.error e => Except.error e
  | Except.ok st1 =>
    let (st2, res) := executeNodes st1 results
    Except.ok (afterRun st2, res)

/-- C5: a compile run that injected an inline node during initialization
removes that node from the manifest nodes map before the run is reported
complete, whatever results execution produced, so the nodes map holds
exactly the same entries afterwards as before (the injected id being
fresh). -/
theorem c5_inline_node_retracted (args : CompileArgs)
    (parseRemote : String → Except String SqlNode) (q : String)
    (node : SqlNode) (results : List RunResult) (st : CompileTaskState)
    (hq : args.inline = some q)
    (hparse : parseRemote q = Except.ok node)
    (hfresh : st.manifest.nodes node.uniqueId = none) :
    ∃ st2 res, runCompileTask args parseRemote results st = Except.ok (st2, res) ∧
      st2.manifest.nodes node.uniqueId = none ∧
      st2.inlineNodeId = none ∧
      (∀ k, st2.manifest.nodes k = st.manifest.nodes k) := by
  refine ⟨{ manifest := Manifest.popNode (Manifest.addNode st.manifest node) node.uniqueId,
            inlineNodeId := none, nodeResults := st.nodeResults }, results, ?_, ?_, ?_, ?_⟩
  · unfold runCompileTask runtimeInitialize
    rw [hq]
    dsimp only
    rw [hparse]
    rfl
  · simp [Manifest.popNode]
  · rfl
  · intro k
    by_cases hk : k = node.uniqueId
    · subst hk
      simp [Manifest.popNode, hfresh]
    · simp [Manifest.popNode, Manifest.addNode, hk]

/-- Witness for C5: a concrete run with a failed result still retracts
the injected inline node and restores the nodes map. -/
theorem c5_inline_node_retracted_witness :
    ∃ st2 res,
      runCompileTask ⟨some "select 1", false⟩
          (fun _ => Except.ok ⟨"inline_query", "sqloperation.test.inline_query"⟩)
          [⟨⟨"inline_query", "sqloperation.test.inline_query", false⟩, false⟩]
          ⟨emptyManifest, none, []⟩ =
        Except.ok (st2, res) ∧
      st2.manifest.nodes "sqloperation.test.inline_query" = none ∧
      st2.inlineNodeId = none ∧
      (∀ k, st2.manifest.nodes k = (⟨emptyManifest, none, []⟩ : CompileTaskState).manifest.nodes k) :=
  c5_inline_node_retracted ⟨some "select 1", false⟩
    (fun _ => Except.ok ⟨"inline_query", "sqloperation.test.inline_query"⟩)
    "select 1" ⟨"inline_query", "sqloperation.test.inline_query"⟩
    [⟨⟨"inline_query", "sqloperation.test.inline_query", false⟩, false⟩]
    ⟨emptyManifest, none, []⟩ rfl rfl rfl

/-- Modelled from the spec: the base graph-runnable result handler
retains only results of nodes that are not ephemeral models in the
user-facing `node_results` stream (the base class is outside this
excerpt; the spec states ephemeral results are retained only when
explicitly selected). -/
def baseHandleResult (st : CompileTaskState) (r : RunResult) : CompileTaskState :=
  if r.node.isEphemeralModel then st
  else { st with nodeResults := st.nodeResults ++ [r] }

/-- Embedding of `CompileTask._handle_result`: after the base handler, an
ephemeral-model result is appended exactly when the handling object is a
`CompileTask` itself and a selection argument or an inline argument is
present. -/
def handleResult (isCompileTask : Bool) (args : CompileArgs)
    (st : CompileTaskState) (r : RunResult) : CompileTaskState :=
  let st1 := baseHandleResult st r
  if r.node.isEphemeralModel && isCompileTask && (args.select || (args.inline).isSome) then
    { st1 with nodeResults := st1.nodeResults ++ [r] }
  else
    st1

/-- C9: an ephemeral-model result handled by a `CompileTask` is retained
in `node_results` exactly when a selection argument or an inline argument
is present; with neither present the stream is unchanged even though the
node executed. -/
theorem c9_ephemeral_result_only_when_selected (args : CompileArgs)
    (st : CompileTaskState) (r : RunResult)
    (heph : r.node.isEphemeralModel = true) :
    (handleResult true args st r).nodeResults =
      if args.select || (args.inline).isSome then st.nodeResults ++ [r]
      else st.nodeResults := by
  rcases hsel : args.select || (args.inline).isSome with _ | _ <;>
    simp [handleResult, baseHandleResult, heph, hsel]

/-- Witness for C9: with no selection and no inline argument, handling an
executed ephemeral-model result leaves `node_results` empty. -/
theorem c9_ephemeral_result_only_when_selected_witness :
    (handleResult true ⟨none, false⟩ ⟨emptyManifest, none, []⟩
        ⟨⟨"int_model", "model.jaffle_shop.int_model", true⟩, true⟩).nodeResults = [] := by
  have h := c9_ephemeral_result_only_when_selected ⟨none, false⟩
    ⟨emptyManifest, none, []⟩
    ⟨⟨"int_model", "model.jaffle_shop.int_model", true⟩, true⟩ rfl
  simpa using h

/-- Modelled from the spec: an identifier declared on an entity; its
reference is derived from its name (the spec writes the identifier
`ref:foo` declared on entities, and the source compares
`identifier.reference` while naming `identifier.reference.name` in the
message). -/
structure Identifier where
  name : String
deriving DecidableEq

/-- The `identifier.reference` property (its element name). -/
def Identifier.reference (i : Identifier) : String := i.name

/-- An entity with its declared identifiers (`Entity`). -/
structure Entity where
  name : String
  identifiers : List Identifier
deriving DecidableEq

/-- The semantic model handed to validation rules
(`UserConfiguredModel`): the entity graph. -/
structure UserConfiguredModel where
  entities : List Entity
deriving DecidableEq

/-- Context of an entity-element validation issue
(`EntityElementContext` with an `EntityElementReference`). -/
structure EntityElementContext where
  entityName : String
  elementName : String
deriving DecidableEq

/-- A validation issue: a warning as emitted by the common-identifiers
rule, or an error as produced by the fault-isolation wrapper. -/
inductive ValidationIssue
  | warning (context : EntityElementContext) (message : String)
  | error (whatWasBeingDone : String)
deriving DecidableEq

/-- Python `set.add` on a set of entity names, modelled as a
duplicate-free list. -/
def setAdd (s : List String) (x : String) : List String :=
  if x ∈ s then s else s ++ [x]

/-- One step of `_map_entity_identifiers`: add the entity name to the set
stored under the identifier reference, creating the entry if absent. -/
def addIdentifierToMap (ename : String) (m : String → Option (List String))
    (i : Identifier) : String → Option (List String) :=
  fun q =>
    if q = Identifier.reference i then
      match m (Identifier.reference i) with
      | some s => some (setAdd s ename)
      | none => some [ename]
    else m q

/-- Embedding of `CommonIdentifiersRule._map_entity_identifiers`: the
mapping from identifier reference to the set of entity names declaring
it. -/
def mapEntityIdentifiers (entities : List Entity) : String → Option (List String) :=
  entities.foldl (fun m e => e.identifiers.foldl (addIdentifierToMap e.name) m)
    (fun _ => none)

/-- Embedding of `CommonIdentifiersRule._check_identifier`: warn when the
set of entities declaring the identifier, minus the current entity, is
empty.  (The `validate_safely` wrapper never fires here: the body is
total.) -/
def checkIdentifier (i : Identifier) (e : Entity)
    (identifiersToEntities : String → Option (List String)) : List ValidationIssue :=
  match identifiersToEntities (Identifier.reference i) with
  | some s =>
    if (s.filter (fun y => y ≠ e.name)).isEmpty then
      [ValidationIssue.warning ⟨e.name, i.name⟩
        ("Identifier `" ++ Identifier.reference i ++ "` only found in one entity `" ++
          e.name ++ "` which means it will be unused in joins.")]
    else []
  | none => []

/-- Embedding of `CommonIdentifiersRule.validate_model`: build the index
once, then scan every identifier of every entity, accumulating issues. -/
def validateModel (model : UserConfiguredModel) : List ValidationIssue :=
  let identifiersToEntities := mapEntityIdentifiers model.entities
  model.entities.foldl (fun issues e =>
    e.identifiers.foldl (fun issues i =>
      issues ++ checkIdentifier i e identifiersToEntities) issues) []

/-- Does some identifier of the list have the given reference. -/
def declaresIds (ids : List Identifier) (r : String) : Bool :=
  ids.any (fun i => Identifier.reference i = r)

/-- Does the entity declare an identifier with the given reference. -/
def declares (e : Entity) (r : String) : Bool :=
  declaresIds e.identifiers r

/-- All (entity, identifier) positions of the model declaring the given
reference, in scan order. -/
def declaringPairs (es : List Entity) (r : String) : List (Entity × Identifier) :=
  es.foldr (fun e acc =>
    (e.identifiers.filter (fun i => Identifier.reference i = r)).map (fun i => (e, i)) ++ acc) []

/-- Does the issue concern the given identifier reference. -/
def issueMentions (r : String) : ValidationIssue → Bool
  | .warning ctx _ => decide (ctx.elementName = r)
  | .error _ => false

/-- Membership in the set stored in the mapping at a reference. -/
def mapHas (m : String → Option (List String)) (r x : String) : Prop :=
  ∃ s, m r = some s ∧ x ∈ s

theorem mem_setAdd (s : List String) (y x : String) :
    x ∈ setAdd s y ↔ x ∈ s ∨ x = y := by
  unfold setAdd
  by_cases h : y ∈ s
  · simp only [h, if_true]
    constructor
    · exact Or.inl
    · rintro (hx | rfl)
      · exact hx
      · exact h
  · simp [h]

theorem mapHas_addIdentifier (ename : String) (m : String → Option (List String))
    (i : Identifier) (r x : String) :
    mapHas (addIdentifierToMap ename m i) r x ↔
      mapHas m r x ∨ (Identifier.reference i = r ∧ x = ename) := by
  unfold mapHas addIdentifierToMap
  by_cases hr : r = Identifier.reference i
  · subst hr
    rcases hm : m (Identifier.reference i) with _ | s
    · simp [hm, mem_setAdd]
    · simp [hm, mem_setAdd]
  · simp [hr]
    intro h
    exact absurd h.symm hr

theorem mapHas_foldIds (ename : String) (ids : List Identifier)
    (m : String → Option (List String)) (r x : String) :
    mapHas (ids.foldl (addIdentifierToMap ename) m) r x ↔
      mapHas m r x ∨ (declaresIds ids r = true ∧ x = ename) := by
  induction ids generalizing m with
  | nil => simp [declaresIds]
  | cons i rest ih =>
    rw [List.foldl_cons, ih, mapHas_addIdentifier]
    simp only [declaresIds, List.any_cons, Bool.or_eq_true, decide_eq_true_eq]
    tauto

theorem mapHas_foldEntities (es : List Entity) (m : String → Option (List String))
    (r x : String) :
    mapHas (es.foldl (fun m e => e.identifiers.foldl (addIdentifierToMap e.name) m) m) r x ↔
      mapHas m r x ∨ ∃ e, e ∈ es ∧ declares e r = true ∧ x = e.name := by
  induction es generalizing m with
  | nil => simp
  | cons e rest ih =>
    rw [List.foldl_cons, ih, mapHas_foldIds]
    simp only [declares, List.mem_cons]
    constructor
    · rintro ((hm | hd) | ⟨e2, he2, hd2, rfl⟩)
      · exact Or.inl hm
      · exact Or.inr ⟨e, Or.inl rfl, hd.1, hd.2⟩
      · exact Or.inr ⟨e2, Or.inr he2, hd2, rfl⟩
    · rintro (hm | ⟨e2, he2 | he2, hd2, rfl⟩)
      · exact Or.inl (Or.inl hm)
      · subst he2
        exact Or.inl (Or.inr ⟨hd2, rfl⟩)
      · exact Or.inr ⟨e2, he2, hd2, rfl⟩

theorem mapHas_mapEntityIdentifiers (es : List Entity) (r x : String) :
    mapHas (mapEntityIdentifiers es) r x ↔
      ∃ e, e ∈ es ∧ declares e r = true ∧ x = e.name := by
  unfold mapEntityIdentifiers
  rw [mapHas_foldEntities]
  simp [mapHas]

theorem declares_iff (e : Entity) (r : String) :
    declares e r = true ↔ ∃ i, i ∈ e.identifiers ∧ Identifier.reference i = r := by
  simp [declares, declaresIds, List.any_eq_true]

theorem mem_declaringPairs (es : List Entity) (r : String) (e : Entity) (i : Identifier) :
    (e, i) ∈ declaringPairs es r ↔
      e ∈ es ∧ i ∈ e.identifiers ∧ Identifier.reference i = r := by
  induction es with
  | nil => simp [declaringPairs]
  | cons e2 rest ih =>
    unfold declaringPairs at ih ⊢
    rw [List.foldr_cons, List.mem_append, ih]
    constructor
    · rintro (hmem | ⟨he, hi, hr⟩)
      · rcases List.mem_map.mp hmem with ⟨i2, hi2, heq⟩
        rcases List.mem_filter.mp hi2 with ⟨hi2m, hr2⟩
        obtain ⟨rfl, rfl⟩ : e2 = e ∧ i2 = i := Prod.mk.injEq .. ▸ heq
        exact ⟨List.mem_cons_self _ _, hi2m, by simpa using hr2⟩
      · exact ⟨List.mem_cons_of_mem _ he, hi, hr⟩
    · rintro ⟨he, hi, hr⟩
      rcases List.mem_cons.mp he with rfl | he2
      · exact Or.inl (List.mem_map.mpr ⟨i, List.mem_filter.mpr ⟨hi, by simpa using hr⟩, rfl⟩)
      · exact Or.inr ⟨he2, hi, hr⟩

/-- Concatenation of the images of a list-valued function, in order. -/
def concatMap (f : α → List β) : List α → List β
  | [] => []
  | x :: xs => f x ++ concatMap f xs

theorem foldl_append_eq_concatMap (f : α → List β) (l : List α) (init : List β) :
    l.foldl (fun acc x => acc ++ f x) init = init ++ concatMap f l := by
  induction l generalizing init with
  | nil => simp [concatMap]
  | cons x xs ih => simp [concatMap, ih]

theorem filter_concatMap (p : β → Bool) (f : α → List β) (l : List α) :
    (concatMap f l).filter p = concatMap (fun a => (f a).filter p) l := by
  induction l with
  | nil => rfl
  | cons x xs ih => simp [concatMap, List.filter_append, ih]

theorem concatMap_eq_nil (f : α → List β) (l : List α)
    (h : ∀ a, a ∈ l → f a = []) : concatMap f l = [] := by
  induction l with
  | nil => rfl
  | cons x xs ih =>
    simp only [concatMap, h x (List.mem_cons_self x xs), List.nil_append]
    exact ih (fun a ha => h a (List.mem_cons_of_mem x ha))

/-- The scan of `validate_model` unfolded to an explicit concatenation
over entities and identifiers. -/
theorem validateModel_eq (model : UserConfiguredModel) :
    validateModel model =
      concatMap (fun e => concatMap
        (fun i => checkIdentifier i e (mapEntityIdentifiers model.entities)) e.identifiers)
        model.entities := by
  unfold validateModel
  suffices h : ∀ (es : List Entity) (init : List ValidationIssue),
      es.foldl (fun issues e => e.identifiers.foldl
        (fun issues i => issues ++ checkIdentifier i e (mapEntityIdentifiers model.entities))
        issues) init =
      init ++ concatMap (fun e => concatMap
        (fun i => checkIdentifier i e (mapEntityIdentifiers model.entities)) e.identifiers) es by
    simpa using h model.entities []
  intro es
  induction es with
  | nil => simp [concatMap]
  | cons e rest ih =>
    intro init
    rw [List.foldl_cons, foldl_append_eq_concatMap, ih]
    simp [concatMap]

/-- A check for an identifier whose reference is not `r` contributes no
issue mentioning `r`. -/
theorem check_filter_other (i : Identifier) (e : Entity)
    (mp : String → Option (List String)) (r : String)
    (h : Identifier.reference i ≠ r) :
    (checkIdentifier i e mp).filter (issueMentions r) = [] := by
  unfold checkIdentifier
  rcases mp (Identifier.reference i) with _ | s
  · rfl
  · dsimp only
    split
    · have hname : i.name ≠ r := h
      simp [issueMentions, hname]
    · rfl

theorem concatMap_filter_ref (e : Entity) (mp : String → Option (List String))
    (r : String) (ids : List Identifier) :
    concatMap (fun i => (checkIdentifier i e mp).filter (issueMentions r)) ids =
    concatMap (fun i => (checkIdentifier i e mp).filter (issueMentions r))
      (ids.filter (fun i => Identifier.reference i = r)) := by
  induction ids with
  | nil => rfl
  | cons i rest ih =>
    by_cases h : Identifier.reference i = r
    · simp only [concatMap, List.filter_cons, h, decide_True, if_true, ih]
    · have hkill := check_filter_other i e mp r h
      simp [concatMap, List.filter_cons, h, ih, hkill]

theorem concatMap_map_pair (e : Entity) (mp : String → Option (List String))
    (r : String) (ids : List Identifier) :
    concatMap (fun pr : Entity × Identifier =>
        (checkIdentifier pr.2 pr.1 mp).filter (issueMentions r)) (ids.map (fun i => (e, i))) =
    concatMap (fun i => (checkIdentifier i e mp).filter (issueMentions r)) ids := by
  induction ids with
  | nil => rfl
  | cons i rest ih => simp [concatMap, ih]

theorem concatMap_append (f : α → List β) (l1 l2 : List α) :
    concatMap f (l1 ++ l2) = concatMap f l1 ++ concatMap f l2 := by
  induction l1 with
  | nil => rfl
  | cons x xs ih => simp [concatMap, ih]

theorem filter_validate_pairs_aux (mp : String → Option (List String)) (r : String)
    (es : List Entity) :
    concatMap (fun e =>
        (concatMap (fun i => checkIdentifier i e mp) e.identifiers).filter (issueMentions r))
      es =
    concatMap (fun pr : Entity × Identifier =>
        (checkIdentifier pr.2 pr.1 mp).filter (issueMentions r)) (declaringPairs es r) := by
  induction es with
  | nil => rfl
  | cons e rest ih =>
    have hpairs : declaringPairs (e :: rest) r =
        (e.identifiers.filter (fun i => Identifier.reference i = r)).map (fun i => (e, i)) ++
          declaringPairs rest r := rfl
    rw [hpairs, concatMap_append, ← ih]
    show (concatMap (fun i => checkIdentifier i e mp) e.identifiers).filter (issueMentions r)
        ++ _ = _
    rw [filter_concatMap, concatMap_filter_ref, ← concatMap_map_pair e mp r]

/-- The issues of `validate_model` mentioning a reference come exactly
from the declaring (entity, identifier) positions. -/
theorem filter_validate_eq_pairs (model : UserConfiguredModel) (r : String) :
    (validateModel model).filter (issueMentions r) =
      concatMap (fun pr : Entity × Identifier =>
        (checkIdentifier pr.2 pr.1 (mapEntityIdentifiers model.entities)).filter
          (issueMentions r))
        (declaringPairs model.entities r) := by
  rw [validateModel_eq, filter_concatMap]
  exact filter_validate_pairs_aux (mapEntityIdentifiers model.entities) r model.entities

/-- C6: for every entity model and identifier reference, (a) when exactly
one (entity, identifier) position declares the reference,
`validate_model` emits exactly one Warning, referencing that entity and
that identifier; (b) when two entities with distinct names both declare
the reference, `validate_model` emits no issue mentioning it. -/
theorem c6_common_identifiers_rule (model : UserConfiguredModel) (r : String) :
    (∀ (a : Entity) (i0 : Identifier),
      declaringPairs model.entities r = [(a, i0)] →
      (validateModel model).filter (issueMentions r) =
        [ValidationIssue.warning ⟨a.name, i0.name⟩
          ("Identifier `" ++ r ++ "` only found in one entity `" ++ a.name ++
            "` which means it will be unused in joins.")])
    ∧ (∀ e1 e2, e1 ∈ model.entities → e2 ∈ model.entities →
        declares e1 r = true → declares e2 r = true → e1.name ≠ e2.name →
        (validateModel model).filter (issueMentions r) = []) := by
  constructor
  · intro a i0 hpairs
    have hmem : (a, i0) ∈ declaringPairs model.entities r := by
      rw [hpairs]
      exact List.mem_singleton.mpr rfl
    obtain ⟨ha, hi0, hr⟩ := (mem_declaringPairs model.entities r a i0).mp hmem
    have huniq : ∀ e i, e ∈ model.entities → i ∈ e.identifiers →
        Identifier.reference i = r → e = a ∧ i = i0 := by
      intro e i he hi hri
      have hm2 : (e, i) ∈ declaringPairs model.entities r :=
        (mem_declaringPairs model.entities r e i).mpr ⟨he, hi, hri⟩
      rw [hpairs] at hm2
      have heq := List.mem_singleton.mp hm2
      exact ⟨congrArg Prod.fst heq, congrArg Prod.snd heq⟩
    have hdecl : declares a r = true := (declares_iff a r).mpr ⟨i0, hi0, hr⟩
    obtain ⟨s, hs, hmemA⟩ :=
      (mapHas_mapEntityIdentifiers model.entities r a.name).mpr ⟨a, ha, hdecl, rfl⟩
    have hall : ∀ x, x ∈ s → x = a.name := by
      intro x hx
      obtain ⟨e, he, hde, hxe⟩ :=
        (mapHas_mapEntityIdentifiers model.entities r x).mp ⟨s, hs, hx⟩
      obtain ⟨i, hi, hri⟩ := (declares_iff e r).mp hde
      rw [hxe]
      exact congrArg Entity.name (huniq e i he hi hri).1
    rw [filter_validate_eq_pairs, hpairs]
    simp only [concatMap, List.append_nil]
    unfold checkIdentifier
    rw [hr, hs]
    have hfe : s.filter (fun y => y ≠ a.name) = [] := by
      rw [List.filter_eq_nil_iff]
      intro x hx
      simp [hall x hx]
    have hname : i0.name = r := hr
    simp only [hfe, List.isEmpty_nil, if_true, hname]
    simp [issueMentions]
  · intro e1 e2 he1 he2 hd1 hd2 hne
    rw [filter_validate_eq_pairs]
    apply concatMap_eq_nil
    rintro ⟨e, i⟩ hpr
    obtain ⟨he, hi, hri⟩ := (mem_declaringPairs model.entities r e i).mp hpr
    obtain ⟨s, hs, hm1⟩ :=
      (mapHas_mapEntityIdentifiers model.entities r e1.name).mpr ⟨e1, he1, hd1, rfl⟩
    obtain ⟨s2, hs2, hm2⟩ :=
      (mapHas_mapEntityIdentifiers model.entities r e2.name).mpr ⟨e2, he2, hd2, rfl⟩
    rw [hs] at hs2
    obtain rfl : s = s2 := Option.some.inj hs2
    have hwit : ∃ x, x ∈ s ∧ x ≠ e.name := by
      by_cases hx : e1.name = e.name
      · refine ⟨e2.name, hm2, ?_⟩
        rw [← hx]
        exact fun h => hne h.symm
      · exact ⟨e1.name, hm1, hx⟩
    obtain ⟨x, hxs, hxe⟩ := hwit
    have hne2 : (s.filter (fun y => y ≠ e.name)).isEmpty = false := by
      have hxm : x ∈ s.filter (fun y => y ≠ e.name) :=
        List.mem_filter.mpr ⟨hxs, by simp [hxe]⟩
      rcases hemp : s.filter (fun y => y ≠ e.name) with _ | ⟨z, zs⟩
      · rw [hemp] at hxm
        cases hxm
      · rfl
    dsimp only
    unfold checkIdentifier
    rw [hri, hs]
    simp [hne2]
    intro hcond
    exact absurd (hcond x hxs) hxe

/-- The concrete entity graph used by the C6 witness: `transaction_id`
is declared only on `transactions`; `user_id` is declared on both
`transactions` and `users`. -/
def modelW : UserConfiguredModel :=
  ⟨[⟨"transactions", [⟨"user_id"⟩, ⟨"transaction_id"⟩]⟩, ⟨"users", [⟨"user_id"⟩]⟩]⟩

/-- Witness for C6 on a concrete entity graph: one warning for the
identifier on a single entity, no issue for the shared identifier. -/
theorem c6_common_identifiers_rule_witness :
    (validateModel modelW).filter (issueMentions "transaction_id") =
      [ValidationIssue.warning ⟨"transactions", "transaction_id"⟩
        ("Identifier `" ++ "transaction_id" ++ "` only found in one entity `" ++
          "transactions" ++ "` which means it will be unused in joins.")]
    ∧ (validateModel modelW).filter (issueMentions "user_id") = [] :=
  ⟨(c6_common_identifiers_rule modelW "transaction_id").1
      ⟨"transactions", [⟨"user_id"⟩, ⟨"transaction_id"⟩]⟩ ⟨"transaction_id"⟩ (by decide),
   (c6_common_identifiers_rule modelW "user_id").2
      ⟨"transactions", [⟨"user_id"⟩, ⟨"transaction_id"⟩]⟩ ⟨"users", [⟨"user_id"⟩]⟩
      (by decide) (by decide) (by decide) (by decide) (by decide)⟩

end Dbt
